import Mathlib

/-
Verification of the ERA5 ETL pipeline scripts (extractor, joiner, sorter,
orchestrator) of the SeniorDesign repository.

The Python sources are shallowly embedded as executable Lean definitions:
  - era5-chronological-sorter.py : sort_file_chronologically
  - era5-data-joiner.py          : inspect/identify_join_columns and
                                   join_data_incrementally (staging and merge)
  - era5-organized-converter.py  : process_era5_file / process_era5_variable /
                                   process_variable_data (constant-column pruning,
                                   year-month extraction from the filename)
  - era5-processing-pipeline2.py : run_converter success recording

DataFrame cells are modelled with Nat (times, already normalized) and Int
(coordinates and values); a missing value (NaN produced by a left join) is
Option.none.  Filesystem effects are modelled by explicit record states and an
injected failure point; all executions assume error-free reads and writes except
where a failure is injected explicitly.
-/

namespace ERA5

/-- Auxiliary walk for dropDuplicates: keep the first occurrence of a value,
skipping any value already seen.  Mirrors pandas drop_duplicates, keep first. -/
def dropDupAux {α : Type} [DecidableEq α] (seen : List α) : List α → List α
  | [] => []
  | a :: l => if a ∈ seen then dropDupAux seen l else a :: dropDupAux (a :: seen) l

/-- pandas DataFrame.drop_duplicates with the default keep first:
the first occurrence of each value is retained, in order. -/
def dropDuplicates {α : Type} [DecidableEq α] (l : List α) : List α :=
  dropDupAux [] l

/-- The three-part join and sort key (time, latitude, longitude).  Time is a
normalized timestamp, coordinates are exact values as compared by the merge. -/
abbrev Key := Nat × Int × Int

/-- Lexicographic order on the (time, latitude, longitude) key, all three
components ascending, as produced by sort_values with a three-column key list. -/
def keyLe (a b : Key) : Prop :=
  a.1 < b.1 ∨ (a.1 = b.1 ∧ (a.2.1 < b.2.1 ∨ (a.2.1 = b.2.1 ∧ a.2.2 ≤ b.2.2)))

instance (a b : Key) : Decidable (keyLe a b) := by
  unfold keyLe; infer_instance

/-- One row of a joined table as seen by the sorter: the coordinate key plus
the remaining variable columns (rest), which may hold nulls. -/
structure SRow where
  time : Nat
  latitude : Int
  longitude : Int
  rest : List (Option Int)
deriving DecidableEq

/-- The (time, latitude, longitude) key of a sorter row. -/
def SRow.key (r : SRow) : Key := (r.time, r.latitude, r.longitude)

/-- Row comparison used by df.sort_values with time, latitude, longitude. -/
def rowLe (a b : SRow) : Prop := keyLe a.key b.key

instance (a b : SRow) : Decidable (rowLe a b) := by
  unfold rowLe; infer_instance

/-- df.sort_values with a multi-column key: pandas uses lexsort, a stable
sort by the lexicographic key; modelled as a stable insertion sort. -/
def sortValues (rows : List SRow) : List SRow := List.insertionSort rowLe rows

/-- A joined table: a header of column names plus its rows. -/
structure STable where
  cols : List String
  rows : List SRow
deriving DecidableEq

/-- The in-memory sort step of sort_file_chronologically. -/
def sortTable (t : STable) : STable := { t with rows := sortValues t.rows }

/-- Injected failure point for the try block of sort_file_chronologically:
no failure, an exception while reading or parsing the input, or an exception
while writing the temporary output file. -/
inductive FailAt
  | noFail
  | atRead
  | atWrite
deriving DecidableEq

/-- Error classes reported by the sorter result dictionary. -/
inductive SortError
  | readError
  | noTimeColumn
  | writeError
deriving DecidableEq

/-- The result dictionary returned by sort_file_chronologically. -/
structure SortResult where
  success : Bool
  error : Option SortError
deriving DecidableEq

/-- The filesystem state touched by one sorter invocation: the content at the
input path, at the temporary .sorted path, and at the backup path. -/
structure SorterFS where
  orig : Option STable
  temp : Option STable
  back : Option STable
deriving DecidableEq

/-- sort_file_chronologically of era5-chronological-sorter.py (and its copy in
era5-processing-pipeline2.py): optional backup copy, read, check for the time
column, sort by (time, latitude, longitude), write the sorted rows to the
temporary path, then os.replace the original.  An exception raised inside the
try block (injected via failAt) is caught and reported as a failed result;
a write failure may leave a half-written temporary file (nWritten rows).
Time normalization (pd.to_datetime) is the identity here since row times are
already structured; its failure is caught inside the source and only warns. -/
def sort_file_chronologically (fs : SorterFS) (backup : Bool) (failAt : FailAt)
    (nWritten : Nat) : SortResult × SorterFS :=
  let fs1 := if backup then { fs with back := fs.orig } else fs
  if failAt = FailAt.atRead then
    (⟨false, some SortError.readError⟩, fs1)
  else
    match fs1.orig with
    | none => (⟨false, some SortError.readError⟩, fs1)
    | some t =>
      if "time" ∈ t.cols then
        let sorted := sortTable t
        if failAt = FailAt.atWrite then
          (⟨false, some SortError.writeError⟩,
            { fs1 with temp := some { sorted with rows := sorted.rows.take nWritten } })
        else
          (⟨true, none⟩, { fs1 with orig := some sorted, temp := none })
      else
        (⟨false, some SortError.noTimeColumn⟩, fs1)

/-- One row of a per-variable staging file written by the staging phase of
join_data_incrementally: columns time, latitude, longitude, value. -/
structure VRow where
  time : Nat
  latitude : Int
  longitude : Int
  value : Int
deriving DecidableEq

/-- The (time, latitude, longitude) key of a staging row. -/
def VRow.key (r : VRow) : Key := (r.time, r.latitude, r.longitude)

/-- The accumulating joined frame: one entry per row, the coordinate key plus
the variable columns accumulated so far (null where a variable had no match). -/
abbrev Frame := List (Key × List (Option Int))

/-- pd.merge(base_df, var_df, on the three key columns, how left): every base
row is kept in order; each right-side row with a matching key produces an
output row carrying its value; a key with no match keeps the single base row
with a null appended for the new column. -/
def leftMerge (f : Frame) (v : List VRow) : Frame :=
  f.flatMap (fun row =>
    let ms := v.filter (fun r => decide (VRow.key r = row.1))
    match ms with
    | [] => [(row.1, row.2 ++ [none])]
    | _ => ms.map (fun r => (row.1, row.2 ++ [some r.value])))

/-- The base coordinate frame of join_data_incrementally: the deduplicated
(time, latitude, longitude) tuples of the base variable staging file, each
with an empty list of joined columns. -/
def initFrame (baseRows : List VRow) : Frame :=
  (dropDuplicates (baseRows.map VRow.key)).map (fun k => (k, []))

/-- The merge loop of join_data_incrementally: left-join each remaining
variable staging table onto the accumulated frame in order. -/
def joinFrames : Frame → List (List VRow) → Frame
  | f, [] => f
  | f, v :: vs => joinFrames (leftMerge f v) vs

/-- One variable of a processing unit as seen by join_data_incrementally:
mapped is true when its metadata resolved all of time, lat, lon and value
columns (so the variable enters var_output_files); loadOk is true when its
staging file was successfully written during the staging phase; mergeOk is
true when reading the staging file back and merging raises no exception. -/
structure VarSpec where
  name : String
  mapped : Bool
  loadOk : Bool
  mergeOk : Bool
deriving DecidableEq

/-- The variables registered in var_output_files, in discovery order: those
whose column mapping resolved (the others are skipped with a warning). -/
def mappableVars (vars : List VarSpec) : List VarSpec :=
  vars.filter (fun v => v.mapped)

/-- Whether join_data_incrementally returns True for the unit: it returns
False when var_output_files is empty, or when the staging file of the base
(first registered) variable does not exist; afterwards every per-variable
merge error is caught and the final write proceeds (writes assumed
error-free). -/
def joinSucceeds (vars : List VarSpec) : Bool :=
  match mappableVars vars with
  | [] => false
  | base :: _ => base.loadOk

/-- A variable that can actually contribute a column: its column mapping
resolved, its staging data was written, and its merge does not raise. -/
def joinable (v : VarSpec) : Bool := v.mapped && v.loadOk && v.mergeOk

/-- The column names of the final merged DataFrame, in construction order:
base_df starts as the three coordinate columns and each variable whose staging
file exists and whose merge succeeds appends its own column. -/
def joinedColumns (vars : List VarSpec) : List String :=
  "time" :: "latitude" :: "longitude" ::
    ((mappableVars vars).filter (fun v => v.loadOk && v.mergeOk)).map (fun v => v.name)

/-- Column-role metadata of one variable, from inspect_file_structure: the
detected time, lat, lon and value column names, none where undetected. -/
structure ColMeta where
  time_col : Option String
  lat_col : Option String
  lon_col : Option String
  value_col : Option String
deriving DecidableEq

/-- One comparison step of Python max over the items of a count dictionary
keyed by the count: the next candidate replaces the current best only when its
count is strictly larger, so the first maximal item wins. -/
def pyMaxStep (l : List String) (acc : Option String) (c : String) : Option String :=
  match acc with
  | none => some c
  | some b => if l.count c > l.count b then some c else some b

/-- Python max over the items of a count dictionary keyed by the count:
iterates the distinct values in first-occurrence (dict insertion) order. -/
def pyMaxByCount (l : List String) : Option String :=
  (dropDuplicates l).foldl (pyMaxStep l) none

/-- identify_join_columns of era5-data-joiner.py: for each of the three roles
collect the detected column names across variables and pick the most common
one, defaulting to time, latitude, longitude when no variable detected the
role. -/
def identify_join_columns (metas : List ColMeta) : String × String × String :=
  ((pyMaxByCount (metas.filterMap ColMeta.time_col)).getD "time",
   (pyMaxByCount (metas.filterMap ColMeta.lat_col)).getD "latitude",
   (pyMaxByCount (metas.filterMap ColMeta.lon_col)).getD "longitude")

/-- A staged row after the per-variable select and rename step of the staging
phase: the fields are the columns time, latitude, longitude, value of the
staging file, whatever the literal source column names were. -/
structure Staged where
  time : Int
  latitude : Int
  longitude : Int
  value : Int
deriving DecidableEq

/-- The select + rename step of the staging phase applied to one source row
(an association of column name to cell value): df of the four resolved columns
renamed to time, latitude, longitude, value.  none when a role is unresolved
or the row lacks the mapped column. -/
def selectRename (meta : ColMeta) (row : List (String × Int)) : Option Staged :=
  match meta.time_col, meta.lat_col, meta.lon_col, meta.value_col with
  | some tc, some lc, some oc, some vc =>
    match row.lookup tc, row.lookup lc, row.lookup oc, row.lookup vc with
    | some t, some la, some lo, some v => some ⟨t, la, lo, v⟩
    | _, _, _, _ => none
  | _, _, _, _ => none

/-- The rename_map dictionary built at lines 322-329 of era5-data-joiner.py,
as an association list (the source builds a Python dict; for the distinct role
names assumed in the theorem below the two agree). -/
def rename_map (tc lc oc vc : String) : List (String × String) :=
  [(tc, "time"), (lc, "latitude"), (oc, "longitude"), (vc, "value")]

/-- df.rename applied to one column name: the mapped name when present. -/
def renameWith (d : List (String × String)) (c : String) : String :=
  (d.lookup c).getD c

/-- The column names of one staging DataFrame after selecting the four
resolved columns and applying rename_map. -/
def stagedColumns (tc lc oc vc : String) : List String :=
  [tc, lc, oc, vc].map (renameWith (rename_map tc lc oc vc))

/-- The columns selected from each staging chunk during the merge phase after
renaming value to the variable name (lines 433-435 of era5-data-joiner.py). -/
def mergeChunkColumns (varName : String) : List String :=
  ["time", "latitude", "longitude", varName]

/-- Variable-name extraction of find_csv_files: the path is split into
components and the variable name is the directory containing the file
(parts[-2]), provided the path has at least four components. -/
def varNameFromPath (parts : List String) : Option String :=
  if parts.length ≥ 4 then parts.get? (parts.length - 2) else none

/-- One variable contained in a raw gridded file, with the outcome of its
decode attempt (process_era5_variable catches every exception and returns
False on a decode failure). -/
structure RawVar where
  name : String
  decodeOk : Bool
deriving DecidableEq

/-- process_era5_file of era5-organized-converter.py, for a file whose
discovered variables are vars: apply the exclusion list, then decode each
remaining variable in order, collecting successes and failures. -/
def process_era5_file (vars : List RawVar) (excludeVars : List String) :
    List String × List String :=
  (vars.filter (fun v => !(excludeVars.contains v.name))).foldl
    (fun acc v =>
      if v.decodeOk then (acc.1 ++ [v.name], acc.2) else (acc.1, acc.2 ++ [v.name]))
    ([], [])

/-- The converter invoked as a script: the main block calls process_era5_file,
discards the returned (successful, failed) lists, and the interpreter exits
with code 0 whenever no exception escapes - decode failures never do. -/
def converterScriptRun (vars : List RawVar) (excludeVars : List String) :
    (List String × List String) × Nat :=
  (process_era5_file vars excludeVars, 0)

/-- run_converter of era5-processing-pipeline2.py records success if and only
if the converter subprocess exit code is 0. -/
def run_converter_success (vars : List RawVar) (excludeVars : List String) : Bool :=
  (converterScriptRun vars excludeVars).2 == 0

/-- The fixed candidate list checked by the constant-column removal of
process_variable_data (lines 176 and 215 of era5-organized-converter.py). -/
def cols_to_check : List String := ["number", "step", "surface"]

/-- pandas Series.nunique: the number of distinct values in a column. -/
def pyNunique (vals : List Int) : Nat := (dropDuplicates vals).length

/-- The constant-column removal step of process_variable_data: a column is
dropped exactly when its name is one of the candidates number, step, surface
and it takes a single distinct value across the chunk. -/
def removeConstantCols (df : List (String × List Int)) : List (String × List Int) :=
  df.filter (fun col => !(cols_to_check.contains col.1 && pyNunique col.2 == 1))

/-- The chunk transformation controlled by remove_constant_cols. -/
def processConstantCols (removeFlag : Bool) (df : List (String × List Int)) :
    List (String × List Int) :=
  if removeFlag then removeConstantCols df else df

/-- Python str slicing s[a:b] for 0 ≤ a ≤ b: clamps to the string length and
never raises. -/
def pySlice (s : String) (a b : Nat) : String :=
  String.mk ((s.data.drop a).take (b - a))

/-- Absence of adjacent underscores inside a numeric literal body. -/
def noDoubleUnderscore : List Char → Bool
  | c1 :: c2 :: rest => !(c1 = '_' && c2 = '_') && noDoubleUnderscore (c2 :: rest)
  | _ => true

/-- Validity of the digit core of a Python int literal: nonempty, digits and
single interior underscores only. -/
def pyDigitsOk (cs : List Char) : Bool :=
  !cs.isEmpty && cs.all (fun c => c.isDigit || c = '_') &&
    !(cs.head? = some '_') && !(cs.getLast? = some '_') && noDoubleUnderscore cs

/-- Whether Python int(s) succeeds: surrounding whitespace is stripped, an
optional sign is allowed, and the rest must be a valid digit core.
(Python also accepts non-ASCII digits; irrelevant for filename prefixes.) -/
def pyIntOk (s : String) : Bool :=
  match ((s.data.dropWhile Char.isWhitespace).reverse.dropWhile Char.isWhitespace).reverse with
  | [] => false
  | c :: rest => if c = '-' || c = '+' then pyDigitsOk rest else pyDigitsOk (c :: rest)

/-- Month formatting f with 02d of the current-date fallback. -/
def pad2 (m : Nat) : String := if m < 10 then "0" ++ toString m else toString m

/-- Year/month extraction of process_era5_variable (lines 49-61): slice the
first four and next two characters of the basename; if either fails to parse
as an int, warn and fall back to the current calendar year and month.
Returns the (year, month) strings used in output paths plus the warned flag. -/
def extract_year_month (baseFilename : String) (nowYear nowMonth : Nat) :
    (String × String) × Bool :=
  let year := pySlice baseFilename 0 4
  let month := pySlice baseFilename 4 6
  if pyIntOk year && pyIntOk month then ((year, month), false)
  else ((toString nowYear, pad2 nowMonth), true)

/-- process_era5_variable after year/month extraction: processing always
continues to the decode attempt; on success the outputs are written under
output_dir/year/month/variable (returned as path components). -/
def process_era5_variable_run (baseFilename : String) (nowYear nowMonth : Nat)
    (outputDir varName : String) (decodeOk : Bool) : Bool × List String :=
  let ym := extract_year_month baseFilename nowYear nowMonth
  if decodeOk then (true, [outputDir, ym.1.1, ym.1.2, varName]) else (false, [])

instance : IsTotal SRow rowLe :=
  ⟨by intro a b; unfold rowLe keyLe; omega⟩

instance : IsTrans SRow rowLe :=
  ⟨by intro a b c h1 h2; unfold rowLe keyLe at h1 h2 ⊢; omega⟩

theorem rowLe_of_key_eq {a b : SRow} (h : SRow.key a = SRow.key b) : rowLe a b := by
  unfold rowLe; rw [h]; unfold keyLe; omega

theorem key_ne_of_not_rowLe {a b : SRow} (h : ¬ rowLe a b) : SRow.key b ≠ SRow.key a :=
  fun he => h (rowLe_of_key_eq he.symm)

theorem filter_orderedInsert (a : SRow) (l : List SRow) (k : Key) :
    (l.orderedInsert rowLe a).filter (fun r => decide (SRow.key r = k)) =
      if SRow.key a = k then
        a :: l.filter (fun r => decide (SRow.key r = k))
      else l.filter (fun r => decide (SRow.key r = k)) := by
  induction l with
  | nil =>
    by_cases h : SRow.key a = k <;> simp [List.orderedInsert, h]
  | cons b l ih =>
    by_cases hab : rowLe a b
    · rw [List.orderedInsert, if_pos hab]
      by_cases h : SRow.key a = k <;> simp [List.filter_cons, h]
    · rw [List.orderedInsert, if_neg hab]
      have hbk : SRow.key b ≠ SRow.key a := key_ne_of_not_rowLe hab
      by_cases h : SRow.key a = k
      · have hb2 : SRow.key b ≠ k := fun hb => hbk (hb.trans h.symm)
        simp [List.filter_cons, hb2, h, ih]
      · simp [List.filter_cons, h, ih]

theorem sortValues_filter (rows : List SRow) (k : Key) :
    (sortValues rows).filter (fun r => decide (SRow.key r = k)) =
      rows.filter (fun r => decide (SRow.key r = k)) := by
  induction rows with
  | nil => rfl
  | cons a l ih =>
    show ((List.insertionSort rowLe l).orderedInsert rowLe a).filter _ = _
    rw [filter_orderedInsert]
    by_cases h : SRow.key a = k
    · rw [if_pos h]
      unfold sortValues at ih
      rw [ih, List.filter_cons, if_pos (by simp [h])]
    · rw [if_neg h]
      unfold sortValues at ih
      rw [ih, List.filter_cons, if_neg (by simp [h])]

/-- C2: the rows written by the Sorter are in non-decreasing lexicographic
order of (time, latitude, longitude), all three ascending, and the sort is
stable: rows sharing an identical key keep their relative input order (the
subsequence at any fixed key is unchanged). -/
theorem sorter_rows_sorted_and_stable (t : STable) :
    List.Sorted rowLe (sortTable t).rows ∧
    ∀ k : Key,
      (sortTable t).rows.filter (fun r => decide (SRow.key r = k)) =
        t.rows.filter (fun r => decide (SRow.key r = k)) :=
  ⟨List.sorted_insertionSort rowLe t.rows, fun k => sortValues_filter t.rows k⟩

/-- C5: the Sorter writes the sorted output to the temporary path and the
original path changes only on success (the os.replace step); every execution
that raises an error before the replace leaves the original file unchanged. -/
theorem sorter_error_keeps_original (fs : SorterFS) (backup : Bool)
    (failAt : FailAt) (nWritten : Nat) :
    ((sort_file_chronologically fs backup failAt nWritten).2.orig ≠ fs.orig →
      (sort_file_chronologically fs backup failAt nWritten).1.success = true) ∧
    (failAt ≠ FailAt.noFail →
      (sort_file_chronologically fs backup failAt nWritten).1.success = false ∧
      (sort_file_chronologically fs backup failAt nWritten).2.orig = fs.orig) := by
  cases backup with
  | false =>
    cases failAt with
    | atRead => simp [sort_file_chronologically]
    | atWrite =>
      rcases h : fs.orig with _ | t
      · simp [sort_file_chronologically, h]
      · by_cases ht : "time" ∈ t.cols <;> simp [sort_file_chronologically, h, ht]
    | noFail =>
      rcases h : fs.orig with _ | t
      · simp [sort_file_chronologically, h]
      · by_cases ht : "time" ∈ t.cols <;> simp [sort_file_chronologically, h, ht]
  | true =>
    cases failAt with
    | atRead => simp [sort_file_chronologically]
    | atWrite =>
      rcases h : fs.orig with _ | t
      · simp [sort_file_chronologically, h]
      · by_cases ht : "time" ∈ t.cols <;> simp [sort_file_chronologically, h, ht]
    | noFail =>
      rcases h : fs.orig with _ | t
      · simp [sort_file_chronologically, h]
      · by_cases ht : "time" ∈ t.cols <;> simp [sort_file_chronologically, h, ht]

/-- C5 witness: at a concrete filesystem state, an injected write failure
reports failure and keeps the original, and on the success path the original
only changes with a successful result. -/
theorem sorter_error_keeps_original_witness :
    ((sort_file_chronologically
        ⟨some ⟨["time"], [⟨1, 0, 0, []⟩, ⟨0, 0, 0, []⟩]⟩, none, none⟩
        false FailAt.noFail 0).2.orig ≠
        some ⟨["time"], [⟨1, 0, 0, []⟩, ⟨0, 0, 0, []⟩]⟩ →
      (sort_file_chronologically
        ⟨some ⟨["time"], [⟨1, 0, 0, []⟩, ⟨0, 0, 0, []⟩]⟩, none, none⟩
        false FailAt.noFail 0).1.success = true) ∧
    ((sort_file_chronologically ⟨some ⟨["time"], []⟩, none, none⟩
        false FailAt.atWrite 0).1.success = false ∧
      (sort_file_chronologically ⟨some ⟨["time"], []⟩, none, none⟩
        false FailAt.atWrite 0).2.orig = some ⟨["time"], []⟩) :=
  ⟨(sorter_error_keeps_original
      ⟨some ⟨["time"], [⟨1, 0, 0, []⟩, ⟨0, 0, 0, []⟩]⟩, none, none⟩
      false FailAt.noFail 0).1,
   (sorter_error_keeps_original ⟨some ⟨["time"], []⟩, none, none⟩
      false FailAt.atWrite 0).2 (by decide)⟩

/-- C10: on an input table with no column named time, the Sorter returns a
failure result identifying the missing column and performs no write: the
original and the temporary path are unchanged. -/
theorem sorter_missing_time_column (fs : SorterFS) (t : STable) (backup : Bool)
    (nWritten : Nat) (horig : fs.orig = some t) (ht : "time" ∉ t.cols) :
    (sort_file_chronologically fs backup FailAt.noFail nWritten).1 =
      ⟨false, some SortError.noTimeColumn⟩ ∧
    (sort_file_chronologically fs backup FailAt.noFail nWritten).2.orig = fs.orig ∧
    (sort_file_chronologically fs backup FailAt.noFail nWritten).2.temp = fs.temp := by
  cases backup <;> simp [sort_file_chronologically, horig, ht]

/-- C10 witness: a concrete table whose only column is latitude. -/
theorem sorter_missing_time_column_witness :
    (sort_file_chronologically ⟨some ⟨["latitude"], []⟩, none, none⟩
        false FailAt.noFail 0).1 = ⟨false, some SortError.noTimeColumn⟩ ∧
    (sort_file_chronologically ⟨some ⟨["latitude"], []⟩, none, none⟩
        false FailAt.noFail 0).2.orig = some ⟨["latitude"], []⟩ ∧
    (sort_file_chronologically ⟨some ⟨["latitude"], []⟩, none, none⟩
        false FailAt.noFail 0).2.temp = none :=
  sorter_missing_time_column ⟨some ⟨["latitude"], []⟩, none, none⟩
    ⟨["latitude"], []⟩ false 0 rfl (by decide)

theorem mem_leftMerge (f : Frame) (v : List VRow) (p : Key × List (Option Int)) :
    p ∈ leftMerge f v ↔
      ∃ vs0, (p.1, vs0) ∈ f ∧
        ((v.filter (fun r => decide (VRow.key r = p.1)) = [] ∧ p.2 = vs0 ++ [none]) ∨
         (∃ r ∈ v.filter (fun r => decide (VRow.key r = p.1)), p.2 = vs0 ++ [some r.value])) := by
  constructor
  · intro hp
    rw [leftMerge, List.mem_flatMap] at hp
    obtain ⟨row, hrow, hin⟩ := hp
    rcases hms : v.filter (fun r => decide (VRow.key r = row.1)) with _ | ⟨r0, rs⟩
    · rw [hms] at hin
      simp only [List.mem_singleton] at hin
      subst hin
      exact ⟨row.2, by simpa using hrow, Or.inl ⟨hms, rfl⟩⟩
    · rw [hms] at hin
      rw [List.mem_map] at hin
      obtain ⟨r, hr, heq⟩ := hin
      subst heq
      exact ⟨row.2, by simpa using hrow, Or.inr ⟨r, by rw [hms]; exact hr, rfl⟩⟩
  · rintro ⟨vs0, hf, hcase⟩
    rw [leftMerge, List.mem_flatMap]
    refine ⟨(p.1, vs0), hf, ?_⟩
    rcases hcase with ⟨hemp, hp2⟩ | ⟨r, hr, hp2⟩
    · simp only [hemp]
      simp [Prod.ext_iff, hp2]
    · rcases hms : v.filter (fun r => decide (VRow.key r = p.1)) with _ | ⟨r0, rs⟩
      · rw [hms] at hr; cases hr
      · rw [hms] at hr
        simp only [hms, List.mem_map]
        exact ⟨r, hr, by rw [Prod.ext_iff]; exact ⟨rfl, hp2.symm⟩⟩

theorem exists_mem_leftMerge (f : Frame) (v : List VRow) (k : Key) :
    (∃ vs, (k, vs) ∈ leftMerge f v) ↔ ∃ vs, (k, vs) ∈ f := by
  constructor
  · rintro ⟨vs, h⟩
    obtain ⟨vs0, hf, _⟩ := (mem_leftMerge f v (k, vs)).1 h
    exact ⟨vs0, hf⟩
  · rintro ⟨vs0, hf⟩
    rcases hms : v.filter (fun r => decide (VRow.key r = k)) with _ | ⟨r0, rs⟩
    · exact ⟨vs0 ++ [none], (mem_leftMerge f v (k, vs0 ++ [none])).2 ⟨vs0, hf, Or.inl ⟨hms, rfl⟩⟩⟩
    · have hr0 : r0 ∈ v.filter (fun r => decide (VRow.key r = k)) := by
        rw [hms]; exact List.mem_cons_self _ _
      exact ⟨vs0 ++ [some r0.value],
        (mem_leftMerge f v (k, vs0 ++ [some r0.value])).2 ⟨vs0, hf, Or.inr ⟨r0, hr0, rfl⟩⟩⟩

theorem joinFrames_keys (vars : List (List VRow)) :
    ∀ (f : Frame) (k : Key),
      (∃ vs, (k, vs) ∈ joinFrames f vars) ↔ ∃ vs, (k, vs) ∈ f := by
  induction vars with
  | nil => intro f k; exact Iff.rfl
  | cons v vt ih =>
    intro f k
    rw [show joinFrames f (v :: vt) = joinFrames (leftMerge f v) vt from rfl,
      ih (leftMerge f v) k, exists_mem_leftMerge]

theorem joinFrames_mem (vars : List (List VRow)) :
    ∀ (f : Frame) (k : Key) (vs : List (Option Int)), (k, vs) ∈ joinFrames f vars →
      ∃ vs0 rest, (k, vs0) ∈ f ∧ vs = vs0 ++ rest ∧ rest.length = vars.length ∧
        ∀ i (hi : i < vars.length),
          (∀ r ∈ vars.get ⟨i, hi⟩, VRow.key r ≠ k) → rest.get? i = some none := by
  induction vars with
  | nil =>
    intro f k vs h
    exact ⟨vs, [], h, by simp, rfl, fun i hi => absurd hi (by simp)⟩
  | cons v vtail ih =>
    intro f k vs h
    obtain ⟨vs1, rest1, hmem1, hvs, hlen, hpos⟩ := ih (leftMerge f v) k vs h
    obtain ⟨vs0, hf, hcase⟩ := (mem_leftMerge f v (k, vs1)).1 hmem1
    rcases hcase with ⟨hemp, hx⟩ | ⟨r, hr, hx⟩
    · dsimp only at hx
      refine ⟨vs0, none :: rest1, hf, by rw [hvs, hx]; simp, by simp [hlen], ?_⟩
      intro i hi hmiss
      cases i with
      | zero => rfl
      | succ j =>
        exact hpos j (Nat.lt_of_succ_lt_succ hi) hmiss
    · dsimp only at hx
      refine ⟨vs0, some r.value :: rest1, hf, by rw [hvs, hx]; simp, by simp [hlen], ?_⟩
      intro i hi hmiss
      cases i with
      | zero =>
        exfalso
        have hrv := List.mem_filter.1 hr
        have : VRow.key r = k := by simpa using hrv.2
        exact hmiss r hrv.1 this
      | succ j =>
        exact hpos j (Nat.lt_of_succ_lt_succ hi) hmiss

/-- C1: for every joined frame, a key appears in the result if and only if it
appears in the deduplicated key set of the base variable staging table; and
any later-joined variable table with no row at a given key contributes a null
at its column position (the base row is never dropped, it gets none). -/
theorem joiner_key_set_and_null_policy (baseRows : List VRow) (vars : List (List VRow)) :
    (∀ k : Key,
        (∃ vs, (k, vs) ∈ joinFrames (initFrame baseRows) vars) ↔
          k ∈ dropDuplicates (baseRows.map VRow.key)) ∧
    ∀ k vs, (k, vs) ∈ joinFrames (initFrame baseRows) vars →
      vs.length = vars.length ∧
      ∀ i (hi : i < vars.length),
        (∀ r ∈ vars.get ⟨i, hi⟩, VRow.key r ≠ k) → vs.get? i = some none := by
  constructor
  · intro k
    rw [joinFrames_keys]
    constructor
    · rintro ⟨vs, h⟩
      rw [initFrame, List.mem_map] at h
      obtain ⟨k0, hk0, he⟩ := h
      obtain ⟨rfl, -⟩ := Prod.mk.injEq .. ▸ he
      exact hk0
    · intro hk
      exact ⟨[], by rw [initFrame, List.mem_map]; exact ⟨k, hk, rfl⟩⟩
  · intro k vs h
    obtain ⟨vs0, rest, hf, hvs, hlen, hpos⟩ :=
      joinFrames_mem vars (initFrame baseRows) k vs h
    have hvs0 : vs0 = [] := by
      rw [initFrame, List.mem_map] at hf
      obtain ⟨k0, -, he⟩ := hf
      exact ((Prod.mk.injEq .. ▸ he).2).symm
    subst hvs0
    simp only [List.nil_append] at hvs
    subst hvs
    exact ⟨hlen, hpos⟩

/-- C1 witness: one base row with key (0,0,0) joined with one empty variable
table; the key survives and the variable column holds none. -/
theorem joiner_key_set_witness :
    ((0, 0, 0) : Key) ∈ dropDuplicates (([⟨0, 0, 0, 5⟩] : List VRow).map VRow.key) ∧
    ([none] : List (Option Int)).get? 0 = some none :=
  ⟨((joiner_key_set_and_null_policy [⟨0, 0, 0, 5⟩] [[]]).1 (0, 0, 0)).1
      ⟨[none], by decide⟩,
   (((joiner_key_set_and_null_policy [⟨0, 0, 0, 5⟩] [[]]).2 (0, 0, 0) [none]
      (by decide)).2 0 (by decide) (by decide))⟩

/-- C3 counterexample: variable a passes column mapping but its staging data
was never written; variable b is fully joinable.  The unit has a joinable
variable, yet join_data_incrementally returns False because the base staging
file of a does not exist. -/
theorem joiner_failure_counterexample :
    joinable ⟨"b", true, true, true⟩ = true ∧
    joinSucceeds [⟨"a", true, false, true⟩, ⟨"b", true, true, true⟩] = false := by
  decide

/-- C3 amended: the join of one unit fails exactly when no base is available:
either no variable passes column mapping, or the first column-mapped variable
(the base) has no staging data; whenever the base staging data exists the join
succeeds, regardless of later variables failing to load or merge. -/
theorem joiner_fails_iff_no_base (vars : List VarSpec) :
    (joinSucceeds vars = false ↔
      mappableVars vars = [] ∨
        ∃ b t, mappableVars vars = b :: t ∧ b.loadOk = false) ∧
    ∀ b t, mappableVars vars = b :: t → b.loadOk = true → joinSucceeds vars = true := by
  constructor
  · unfold joinSucceeds
    rcases h : mappableVars vars with _ | ⟨b, t⟩
    · simp
    · simp only [h]
      constructor
      · intro hb
        exact Or.inr ⟨b, t, rfl, hb⟩
      · rintro (he | ⟨b2, t2, he, hb2⟩)
        · cases he
        · obtain ⟨rfl, -⟩ := List.cons.injEq .. ▸ he
          exact hb2
  · intro b t h hb
    unfold joinSucceeds
    rw [h]
    exact hb

/-- C3 amended witness: a single mapped variable with staging data present
joins successfully. -/
theorem joiner_fails_iff_no_base_witness :
    joinSucceeds [⟨"sp", true, true, false⟩] = true :=
  (joiner_fails_iff_no_base [⟨"sp", true, true, false⟩]).2
    ⟨"sp", true, true, false⟩ [] (by decide) rfl

theorem mem_dropDupAux {α : Type} [DecidableEq α] (a : α) :
    ∀ (l seen : List α), a ∈ dropDupAux seen l ↔ a ∈ l ∧ a ∉ seen := by
  intro l
  induction l with
  | nil => intro seen; simp [dropDupAux]
  | cons b l ih =>
    intro seen
    by_cases hb : b ∈ seen
    · rw [dropDupAux, if_pos hb, ih]
      constructor
      · rintro ⟨h1, h2⟩
        exact ⟨List.mem_cons_of_mem _ h1, h2⟩
      · rintro ⟨h1, h2⟩
        rcases List.mem_cons.1 h1 with rfl | h1
        · exact absurd hb h2
        · exact ⟨h1, h2⟩
    · rw [dropDupAux, if_neg hb]
      constructor
      · intro h
        rcases List.mem_cons.1 h with rfl | h
        · exact ⟨List.mem_cons_self _ _, hb⟩
        · obtain ⟨h1, h2⟩ := (ih (b :: seen)).1 h
          exact ⟨List.mem_cons_of_mem _ h1,
            fun hs => h2 (List.mem_cons_of_mem _ hs)⟩
      · rintro ⟨h1, h2⟩
        rcases List.mem_cons.1 h1 with rfl | h1
        · exact List.mem_cons_self _ _
        · by_cases hab : a = b
          · subst hab; exact List.mem_cons_self _ _
          · refine List.mem_cons_of_mem _ ((ih (b :: seen)).2 ⟨h1, ?_⟩)
            simp [hab, h2]

theorem mem_dropDuplicates {α : Type} [DecidableEq α] (a : α) (l : List α) :
    a ∈ dropDuplicates l ↔ a ∈ l := by
  rw [dropDuplicates, mem_dropDupAux]
  simp

theorem pyMax_foldl_spec (l : List String) :
    ∀ (ds : List String) (acc : Option String) (m : String),
      ds.foldl (pyMaxStep l) acc = some m →
      (∀ b, acc = some b → l.count b ≤ l.count m) ∧
        ∀ c ∈ ds, l.count c ≤ l.count m := by
  intro ds
  induction ds with
  | nil =>
    intro acc m h
    simp only [List.foldl_nil] at h
    refine ⟨?_, by simp⟩
    intro b hb
    rw [hb] at h
    cases h
    exact le_refl _
  | cons d ds ih =>
    intro acc m h
    rw [List.foldl_cons] at h
    obtain ⟨h1, h2⟩ := ih (pyMaxStep l acc d) m h
    have hd : l.count d ≤ l.count m := by
      rcases acc with _ | b
      · exact h1 d rfl
      · by_cases hc : l.count d > l.count b
        · exact h1 d (by simp [pyMaxStep, hc])
        · exact le_trans (Nat.le_of_not_lt hc) (h1 b (by simp [pyMaxStep, hc]))
    refine ⟨?_, ?_⟩
    · intro b hb
      subst hb
      by_cases hc : l.count d > l.count b
      · exact le_trans (Nat.le_of_lt hc) hd
      · exact h1 b (by simp [pyMaxStep, hc])
    · intro c hc
      rcases List.mem_cons.1 hc with rfl | hc
      · exact hd
      · exact h2 c hc

theorem pyMax_foldl_some (l : List String) :
    ∀ (ds : List String) (b : String), ∃ m, ds.foldl (pyMaxStep l) (some b) = some m := by
  intro ds
  induction ds with
  | nil => intro b; exact ⟨b, rfl⟩
  | cons d ds ih =>
    intro b
    rw [List.foldl_cons]
    by_cases hc : l.count d > l.count b
    · simpa [pyMaxStep, hc] using ih d
    · simpa [pyMaxStep, hc] using ih b

theorem pyMaxByCount_isSome (l : List String) (hl : l ≠ []) :
    ∃ m, pyMaxByCount l = some m := by
  rcases l with _ | ⟨a, t⟩
  · exact absurd rfl hl
  · rw [pyMaxByCount, dropDuplicates, dropDupAux, if_neg (List.not_mem_nil a),
      List.foldl_cons]
    exact pyMax_foldl_some (a :: t) (dropDupAux [a] t) a

theorem pyMax_spec (l : List String) (m : String) (h : pyMaxByCount l = some m) :
    ∀ c ∈ l, l.count c ≤ l.count m := by
  intro c hc
  exact (pyMax_foldl_spec l (dropDuplicates l) none m h).2 c
    ((mem_dropDuplicates c l).2 hc)

/-- C4: identify_join_columns selects for each of time, latitude and
longitude a column name whose occurrence count across the unit is maximal
(the plurality name); and the staging select + rename step depends only on the
values found at the mapped columns, so two variables that disagree on the
literal names still produce identical staged rows from identical logical
content and are merged on the same logical key. -/
theorem joiner_plurality_and_logical_key (metas : List ColMeta) :
    (∀ c ∈ metas.filterMap ColMeta.time_col,
      (metas.filterMap ColMeta.time_col).count c ≤
        (metas.filterMap ColMeta.time_col).count (identify_join_columns metas).1) ∧
    (∀ c ∈ metas.filterMap ColMeta.lat_col,
      (metas.filterMap ColMeta.lat_col).count c ≤
        (metas.filterMap ColMeta.lat_col).count (identify_join_columns metas).2.1) ∧
    (∀ c ∈ metas.filterMap ColMeta.lon_col,
      (metas.filterMap ColMeta.lon_col).count c ≤
        (metas.filterMap ColMeta.lon_col).count (identify_join_columns metas).2.2) ∧
    ∀ (tc1 lc1 oc1 vc1 tc2 lc2 oc2 vc2 : String) (r1 r2 : List (String × Int)),
      r1.lookup tc1 = r2.lookup tc2 → r1.lookup lc1 = r2.lookup lc2 →
      r1.lookup oc1 = r2.lookup oc2 → r1.lookup vc1 = r2.lookup vc2 →
      selectRename ⟨some tc1, some lc1, some oc1, some vc1⟩ r1 =
        selectRename ⟨some tc2, some lc2, some oc2, some vc2⟩ r2 := by
  refine ⟨?_, ?_, ?_, ?_⟩
  · intro c hc
    obtain ⟨m, hm⟩ := pyMaxByCount_isSome _ (List.ne_nil_of_mem hc)
    have hsel : (identify_join_columns metas).1 = m := by
      rw [identify_join_columns]
      simp [hm]
    rw [hsel]
    exact pyMax_spec _ m hm c hc
  · intro c hc
    obtain ⟨m, hm⟩ := pyMaxByCount_isSome _ (List.ne_nil_of_mem hc)
    have hsel : (identify_join_columns metas).2.1 = m := by
      rw [identify_join_columns]
      simp [hm]
    rw [hsel]
    exact pyMax_spec _ m hm c hc
  · intro c hc
    obtain ⟨m, hm⟩ := pyMaxByCount_isSome _ (List.ne_nil_of_mem hc)
    have hsel : (identify_join_columns metas).2.2 = m := by
      rw [identify_join_columns]
      simp [hm]
    rw [hsel]
    exact pyMax_spec _ m hm c hc
  · intro tc1 lc1 oc1 vc1 tc2 lc2 oc2 vc2 r1 r2 h1 h2 h3 h4
    dsimp only [selectRename]
    rw [h1, h2, h3, h4]

/-- C4 witness: three variables with time columns time, time1, time pick the
plurality name, and two variables naming the key columns differently stage
identical rows from identical logical content. -/
theorem joiner_plurality_witness :
    (([⟨some "time", some "lat", some "lon", some "u10"⟩,
       ⟨some "time1", some "latitude", some "longitude", some "v10"⟩,
       ⟨some "time", some "lat", some "lon", some "t2m"⟩] : List ColMeta).filterMap
        ColMeta.time_col).count "time1" ≤
      (([⟨some "time", some "lat", some "lon", some "u10"⟩,
         ⟨some "time1", some "latitude", some "longitude", some "v10"⟩,
         ⟨some "time", some "lat", some "lon", some "t2m"⟩] : List ColMeta).filterMap
          ColMeta.time_col).count
        (identify_join_columns
          [⟨some "time", some "lat", some "lon", some "u10"⟩,
           ⟨some "time1", some "latitude", some "longitude", some "v10"⟩,
           ⟨some "time", some "lat", some "lon", some "t2m"⟩]).1 ∧
    selectRename ⟨some "time", some "lat", some "lon", some "u10"⟩
        [("time", 3), ("lat", 1), ("lon", 2), ("u10", 9)] =
      selectRename ⟨some "time1", some "latitude", some "longitude", some "v10"⟩
        [("time1", 3), ("latitude", 1), ("longitude", 2), ("v10", 9)] :=
  ⟨(joiner_plurality_and_logical_key
      [⟨some "time", some "lat", some "lon", some "u10"⟩,
       ⟨some "time1", some "latitude", some "longitude", some "v10"⟩,
       ⟨some "time", some "lat", some "lon", some "t2m"⟩]).1 "time1" (by decide),
   (joiner_plurality_and_logical_key []).2.2.2 "time" "lat" "lon" "u10"
      "time1" "latitude" "longitude" "v10"
      [("time", 3), ("lat", 1), ("lon", 2), ("u10", 9)]
      [("time1", 3), ("latitude", 1), ("longitude", 2), ("v10", 9)]
      (by decide) (by decide) (by decide) (by decide)⟩

theorem process_foldl_partition (l : List RawVar) :
    ∀ (s f : List String),
      l.foldl
        (fun acc v =>
          if v.decodeOk then (acc.1 ++ [v.name], acc.2) else (acc.1, acc.2 ++ [v.name]))
        (s, f) =
      (s ++ (l.filter (fun v => v.decodeOk)).map (fun v => v.name),
       f ++ (l.filter (fun v => !v.decodeOk)).map (fun v => v.name)) := by
  induction l with
  | nil => intro s f; simp
  | cons v l ih =>
    intro s f
    rw [List.foldl_cons]
    by_cases hv : v.decodeOk
    · rw [if_pos hv]
      rw [ih (s ++ [v.name]) f]
      simp [List.filter_cons, hv]
    · rw [if_neg hv]
      rw [ih s (f ++ [v.name])]
      simp only [Bool.not_eq_true] at hv
      simp [List.filter_cons, hv]

/-- C6 counterexample: a raw file whose only variable fails to decode.
process_era5_file reports it only through the returned lists; the converter
script still exits with code 0, so run_converter records the extraction of
the unit as successful, not failed. -/
theorem extractor_zero_decode_counterexample :
    process_era5_file [⟨"tcc", false⟩] [] = ([], ["tcc"]) ∧
    run_converter_success [⟨"tcc", false⟩] [] = true := by
  decide

/-- C6 amended: a decode failure on one variable is caught, the variable is
added to the failed list, and every remaining variable is still processed
(successful and failed are exactly the decode-succeeding and decode-failing
variables, in order); but the zero-success case is visible only in the lists
returned by process_era5_file - the converter script exits with code 0 and
run_converter, which tests only the exit code, records success. -/
theorem extractor_isolation_and_exit_code (vars : List RawVar) (excludeVars : List String) :
    process_era5_file vars excludeVars =
      (((vars.filter (fun v => !(excludeVars.contains v.name))).filter
          (fun v => v.decodeOk)).map (fun v => v.name),
       ((vars.filter (fun v => !(excludeVars.contains v.name))).filter
          (fun v => !v.decodeOk)).map (fun v => v.name)) ∧
    run_converter_success vars excludeVars = true := by
  refine ⟨?_, rfl⟩
  rw [process_era5_file, process_foldl_partition]
  simp

/-- C7 counterexample: a chunk with a constant column named level.  With
removal enabled the chunk is unchanged: the constant column is kept because
only the candidate names number, step, surface are ever checked. -/
theorem extractor_constant_col_counterexample :
    pyNunique [5, 5] = 1 ∧
    processConstantCols true [("level", [5, 5]), ("value", [1, 2])] =
      [("level", [5, 5]), ("value", [1, 2])] := by
  decide

/-- C7 amended: with removal enabled, a column survives the chunk exactly
when it is not one of the candidates number, step, surface with a single
distinct value across the chunk; in particular every column with more than
one distinct value is kept, and so is every constant column under any other
name. -/
theorem extractor_constant_col_membership (df : List (String × List Int))
    (c : String) (vals : List Int) :
    (c, vals) ∈ processConstantCols true df ↔
      (c, vals) ∈ df ∧ ¬(c ∈ cols_to_check ∧ pyNunique vals = 1) := by
  rw [show processConstantCols true df = removeConstantCols df from rfl,
    removeConstantCols, List.mem_filter]
  simp
  tauto

/-- C8: whatever the literal column names of a variable are, the staging
rename produces exactly the columns time, latitude, longitude, value; the
merge phase selects time, latitude, longitude and the variable name for each
chunk; the joined output header is time, latitude, longitude followed by one
column per merged variable, named after the variable; and the variable name
is the directory containing the file. -/
theorem joiner_output_columns (tc lc oc vc : String) (vars : List VarSpec)
    (htl : tc ≠ lc) (hto : tc ≠ oc) (htv : tc ≠ vc)
    (hlo : lc ≠ oc) (hlv : lc ≠ vc) (hov : oc ≠ vc) :
    stagedColumns tc lc oc vc = ["time", "latitude", "longitude", "value"] ∧
    (∀ varName : String,
      mergeChunkColumns varName = ["time", "latitude", "longitude", varName]) ∧
    joinedColumns vars =
      "time" :: "latitude" :: "longitude" ::
        ((mappableVars vars).filter (fun v => v.loadOk && v.mergeOk)).map
          (fun v => v.name) ∧
    ∀ (b y m v f : String), varNameFromPath [b, y, m, v, f] = some v := by
  refine ⟨?_, fun _ => rfl, rfl, fun b y m v f => rfl⟩
  have e1 : (lc == tc) = false := beq_eq_false_iff_ne.2 (Ne.symm htl)
  have e2 : (oc == tc) = false := beq_eq_false_iff_ne.2 (Ne.symm hto)
  have e3 : (oc == lc) = false := beq_eq_false_iff_ne.2 (Ne.symm hlo)
  have e4 : (vc == tc) = false := beq_eq_false_iff_ne.2 (Ne.symm htv)
  have e5 : (vc == lc) = false := beq_eq_false_iff_ne.2 (Ne.symm hlv)
  have e6 : (vc == oc) = false := beq_eq_false_iff_ne.2 (Ne.symm hov)
  simp [stagedColumns, rename_map, renameWith, List.lookup, e1, e2, e3, e4, e5, e6]

/-- C8 witness: a variable whose files name the coordinates time1, lat, lon
and the values t2m still stages to the canonical four columns. -/
theorem joiner_output_columns_witness :
    stagedColumns "time1" "lat" "lon" "t2m" =
      ["time", "latitude", "longitude", "value"] :=
  (joiner_output_columns "time1" "lat" "lon" "t2m" [] (by decide) (by decide)
    (by decide) (by decide) (by decide) (by decide)).1

/-- C9: when either of the basename slices [0:4] and [4:6] fails to parse as
a Python int, the Extractor neither fails nor skips the file: it warns and
uses the current calendar year and month, and processing continues with the
outputs written under the current year and month. -/
theorem extractor_fallback_to_current_month (name : String) (nowYear nowMonth : Nat)
    (outputDir varName : String)
    (h : (pyIntOk (pySlice name 0 4) && pyIntOk (pySlice name 4 6)) = false) :
    extract_year_month name nowYear nowMonth = ((toString nowYear, pad2 nowMonth), true) ∧
    process_era5_variable_run name nowYear nowMonth outputDir varName true =
      (true, [outputDir, toString nowYear, pad2 nowMonth, varName]) := by
  have h1 : extract_year_month name nowYear nowMonth =
      ((toString nowYear, pad2 nowMonth), true) := by
    rw [extract_year_month]
    simp only [h, Bool.false_eq_true, if_false]
  exact ⟨h1, by simp [process_era5_variable_run, h1]⟩

/-- C9 witness: the basename bad has a non-numeric year slice; the outputs of
a successfully decoded variable go under the current year and month. -/
theorem extractor_fallback_witness :
    extract_year_month "bad" 2026 10 = ((toString 2026, pad2 10), true) ∧
    process_era5_variable_run "bad" 2026 10 "out" "cape" true =
      (true, ["out", toString 2026, pad2 10, "cape"]) :=
  extractor_fallback_to_current_month "bad" 2026 10 "out" "cape" (by decide)

end ERA5
